import Mathlib

/-!
Verification of the animation retargeting and playback core of the
`3D-anime` repository (`src/app/page.tsx`).

The embedding models:
* `retargetAnimation` (page.tsx lines 139-156): bone-name remapping of an
  animation clip through the `boneMapping` table, with the deep clone
  performed by `AnimationClip.parse(AnimationClip.toJSON(clip))` and the
  `values.slice()` copy made explicit through a store of numeric arrays
  (so that aliasing and mutation facts are expressible); the guard
  `if (boneMapping[boneName])` is JavaScript bracket lookup on an object
  literal, so it also finds the truthy inherited string-keyed members of
  `Object.prototype` (`toString`, `constructor`, ...), which the template
  literal then stringifies into the emitted track name;
* `playDanceAnimation` (page.tsx lines 371-404): the playback controller,
  with the `actionsRef` table mapping action names to references into a
  heap of `AnimationAction` states, `currentActionRef` as an optional
  reference, `mixerRef` presence as a flag, and the audio element;
* `loadModels` (page.tsx lines 177-226) together with the module-level
  `isLoading` flag (line 112), modelled as a segmented asynchronous
  computation whose suspension points are the two `await loader.loadAsync`
  calls.

Numeric sample data is carried by `Rat`; no claim performs arithmetic on
samples, so the carrier only has to be a decidable-equality type.
-/

namespace Anime3D

/-! ### JavaScript `String.prototype.split` on a single-character separator -/

/-- Accumulator-based core of JavaScript `split`: `acc` holds the characters
of the current field in reverse order. -/
def splitAux (c : Char) : List Char → List Char → List (List Char)
  | [], acc => [acc.reverse]
  | x :: xs, acc =>
    if x = c then acc.reverse :: splitAux c xs [] else splitAux c xs (x :: acc)

/-- JavaScript `s.split(c)` for a one-character separator `c`: always returns
at least one field, `"".split(c) = [""]`, and trailing separators produce a
trailing empty field — exactly the semantics `track.name.split('.')` relies
on in `retargetAnimation`. -/
def jsSplit (c : Char) (s : String) : List String :=
  (splitAux c s.data []).map List.asString

/-- The part of a track name before the first `'.'` — the bone name, as
computed by `const [boneName, property] = track.name.split('.')`. -/
def boneNameOf (s : String) : String :=
  (jsSplit '.' s).headD ""

/-- The second field of the JavaScript destructuring
`const [boneName, property] = track.name.split('.')`; `none` models the
JavaScript value `undefined` obtained when the name contains no `'.'`. -/
def propertyOf (s : String) : Option String :=
  (jsSplit '.' s).get? 1

/-- JavaScript string interpolation of a possibly-`undefined` value:
`undefined` prints as `"undefined"` inside a template literal. -/
def jsInterp (o : Option String) : String :=
  o.getD "undefined"

/-! ### Store of numeric arrays

JavaScript keyframe tracks hold their time and value samples in typed
arrays, which are mutable heap objects; aliasing between the source clip
and the retargeted clip is a heap fact.  We model the heap of numeric
arrays explicitly: an array reference is an index into a store, and every
array-producing operation (`AnimationClip.parse`, `.slice()`) allocates. -/

/-- The heap of numeric arrays. -/
structure Store where
  arrays : List (List Rat)
  deriving Repr, DecidableEq

/-- Allocate a fresh array holding `data`; returns the new store and the
reference to the fresh array. -/
def Store.alloc (st : Store) (data : List Rat) : Store × Nat :=
  (⟨st.arrays ++ [data]⟩, st.arrays.length)

/-- Read the array behind reference `r` (empty for a dangling reference;
valid programs never read dangling references). -/
def Store.read (st : Store) (r : Nat) : List Rat :=
  (st.arrays[r]?).getD []

/-! ### Data model: tracks and clips -/

/-- A `THREE.KeyframeTrack`: a name of the shape `bone.property` plus
references to its time and value sample arrays. -/
structure KeyframeTrack where
  name : String
  times : Nat
  values : Nat
  deriving Repr, DecidableEq

/-- A `THREE.AnimationClip`: a named, fixed-duration list of tracks. -/
structure AnimationClip where
  name : String
  duration : Rat
  tracks : List KeyframeTrack
  deriving Repr, DecidableEq

/-! ### The bone name mapping table (page.tsx lines 43-109) -/

/-- JavaScript object lookup on a literal string-keyed table (first match;
the literal has no duplicate keys). -/
def lookupStr {α : Type} (k : String) : List (String × α) → Option α
  | [] => none
  | p :: ps => if p.1 = k then some p.2 else lookupStr k ps

/-- The `boneMapping` table: motion-skeleton bone name → kawaii-model bone
name, transcribed entry for entry from page.tsx lines 43-109. -/
def boneMapping : List (String × String) :=
  [ ( "hips_JNT", "J_Bip_C_Hips" ),
    ( "spine_JNT", "J_Bip_C_Spine" ),
    ( "spine1_JNT", "J_Bip_C_Chest" ),
    ( "spine2_JNT", "J_Bip_C_UpperChest" ),
    ( "neck_JNT", "J_Bip_C_Neck" ),
    ( "head_JNT", "J_Bip_C_Head" ),
    ( "l_shoulder_JNT", "J_Bip_L_Shoulder" ),
    ( "l_arm_JNT", "J_Bip_L_UpperArm" ),
    ( "l_forearm_JNT", "J_Bip_L_LowerArm" ),
    ( "l_hand_JNT", "J_Bip_L_Hand" ),
    ( "r_shoulder_JNT", "J_Bip_R_Shoulder" ),
    ( "r_arm_JNT", "J_Bip_R_UpperArm" ),
    ( "r_forearm_JNT", "J_Bip_R_LowerArm" ),
    ( "r_hand_JNT", "J_Bip_R_Hand" ),
    ( "l_upleg_JNT", "J_Bip_L_UpperLeg" ),
    ( "l_leg_JNT", "J_Bip_L_LowerLeg" ),
    ( "l_foot_JNT", "J_Bip_L_Foot" ),
    ( "l_toebase_JNT", "J_Bip_L_ToeBase" ),
    ( "r_upleg_JNT", "J_Bip_R_UpperLeg" ),
    ( "r_leg_JNT", "J_Bip_R_LowerLeg" ),
    ( "r_foot_JNT", "J_Bip_R_Foot" ),
    ( "r_toebase_JNT", "J_Bip_R_ToeBase" ),
    ( "l_handThumb1_JNT", "J_Bip_L_Thumb1" ),
    ( "l_handThumb2_JNT", "J_Bip_L_Thumb2" ),
    ( "l_handThumb3_JNT", "J_Bip_L_Thumb3" ),
    ( "l_handIndex1_JNT", "J_Bip_L_Index1" ),
    ( "l_handIndex2_JNT", "J_Bip_L_Index2" ),
    ( "l_handIndex3_JNT", "J_Bip_L_Index3" ),
    ( "l_handMiddle1_JNT", "J_Bip_L_Middle1" ),
    ( "l_handMiddle2_JNT", "J_Bip_L_Middle2" ),
    ( "l_handMiddle3_JNT", "J_Bip_L_Middle3" ),
    ( "l_handRing1_JNT", "J_Bip_L_Ring1" ),
    ( "l_handRing2_JNT", "J_Bip_L_Ring2" ),
    ( "l_handRing3_JNT", "J_Bip_L_Ring3" ),
    ( "l_handPinky1_JNT", "J_Bip_L_Little1" ),
    ( "l_handPinky2_JNT", "J_Bip_L_Little2" ),
    ( "l_handPinky3_JNT", "J_Bip_L_Little3" ),
    ( "r_handThumb1_JNT", "J_Bip_R_Thumb1" ),
    ( "r_handThumb2_JNT", "J_Bip_R_Thumb2" ),
    ( "r_handThumb3_JNT", "J_Bip_R_Thumb3" ),
    ( "r_handIndex1_JNT", "J_Bip_R_Index1" ),
    ( "r_handIndex2_JNT", "J_Bip_R_Index2" ),
    ( "r_handIndex3_JNT", "J_Bip_R_Index3" ),
    ( "r_handMiddle1_JNT", "J_Bip_R_Middle1" ),
    ( "r_handMiddle2_JNT", "J_Bip_R_Middle2" ),
    ( "r_handMiddle3_JNT", "J_Bip_R_Middle3" ),
    ( "r_handRing1_JNT", "J_Bip_R_Ring1" ),
    ( "r_handRing2_JNT", "J_Bip_R_Ring2" ),
    ( "r_handRing3_JNT", "J_Bip_R_Ring3" ),
    ( "r_handPinky1_JNT", "J_Bip_R_Little1" ),
    ( "r_handPinky2_JNT", "J_Bip_R_Little2" ),
    ( "r_handPinky3_JNT", "J_Bip_R_Little3" ) ]

/-- `boneMapping` is a plain object literal, so the bracket lookup
`boneMapping[boneName]` falls back to the prototype chain: for the
string-keyed members of `Object.prototype` (including the Annex-B
accessors present in every browser engine) it returns a truthy inherited
value — a function, or `Object.prototype` itself for `__proto__` — and
the template literal `` `${boneMapping[boneName]}.${property}` `` then
stringifies that value.  This table pairs each such member name with the
string the template literal produces for it (the `[native code]`
rendering of functions; `"[object Object]"` for the prototype object).
Only three facts about these strings are load-bearing and they hold in
every engine: the looked-up values are truthy, their stringifications are
nonempty, and the stringifications contain no `'.'`. -/
def objectProtoProps : List (String × String) :=
  [ ( "constructor", "function Object() \x7b [native code] \x7d" ),
    ( "hasOwnProperty", "function hasOwnProperty() \x7b [native code] \x7d" ),
    ( "isPrototypeOf", "function isPrototypeOf() \x7b [native code] \x7d" ),
    ( "propertyIsEnumerable", "function propertyIsEnumerable() \x7b [native code] \x7d" ),
    ( "toLocaleString", "function toLocaleString() \x7b [native code] \x7d" ),
    ( "toString", "function toString() \x7b [native code] \x7d" ),
    ( "valueOf", "function valueOf() \x7b [native code] \x7d" ),
    ( "__proto__", "[object Object]" ),
    ( "__defineGetter__", "function __defineGetter__() \x7b [native code] \x7d" ),
    ( "__defineSetter__", "function __defineSetter__() \x7b [native code] \x7d" ),
    ( "__lookupGetter__", "function __lookupGetter__() \x7b [native code] \x7d" ),
    ( "__lookupSetter__", "function __lookupSetter__() \x7b [native code] \x7d" ) ]

/-! ### `retargetAnimation` (page.tsx lines 139-156) -/

/-- The deep clone of the track list performed by
`THREE.AnimationClip.parse(THREE.AnimationClip.toJSON(clip))`: every track
keeps its name but receives freshly allocated copies of its time and value
arrays. -/
def cloneTracks : List KeyframeTrack → Store → List KeyframeTrack × Store
  | [], st => ([], st)
  | t :: ts, st =>
    let a1 := st.alloc (st.read t.times)
    let a2 := a1.1.alloc (a1.1.read t.values)
    let rest := cloneTracks ts a2.1
    (⟨t.name, a1.2, a2.2⟩ :: rest.1, rest.2)

/-- Embeds `THREE.AnimationClip.parse(THREE.AnimationClip.toJSON(clip))`. -/
def cloneClip (clip : AnimationClip) (st : Store) : AnimationClip × Store :=
  let r := cloneTracks clip.tracks st
  (⟨clip.name, clip.duration, r.1⟩, r.2)

/-- The `newClip.tracks.forEach` loop of `retargetAnimation`: split each
track name at `'.'` and test `if (boneMapping[boneName])`.  JavaScript
property resolution checks the object's own keys first — an own value is
a string, falsy exactly when empty — and otherwise walks the prototype
chain, where the string-keyed `Object.prototype` members are found and
are all truthy; only when both fail is the result `undefined` (falsy) and
the track skipped.  On a truthy result the code pushes a new track named
`` `${boneMapping[boneName]}.${property}` `` (the template literal
stringifies an inherited value) whose values array is the fresh copy
`track.values.slice()` and whose times array is `track.times` itself. -/
def retargetTracks : List KeyframeTrack → Store → List KeyframeTrack × Store
  | [], st => ([], st)
  | t :: ts, st =>
    match lookupStr (boneNameOf t.name) boneMapping with
    | some mapped =>
      if mapped = "" then retargetTracks ts st
      else
        let a := st.alloc (st.read t.values)
        let rest := retargetTracks ts a.1
        (⟨mapped ++ "." ++ jsInterp (propertyOf t.name), t.times, a.2⟩ :: rest.1, rest.2)
    | none =>
      match lookupStr (boneNameOf t.name) objectProtoProps with
      | some inherited =>
        let a := st.alloc (st.read t.values)
        let rest := retargetTracks ts a.1
        (⟨inherited ++ "." ++ jsInterp (propertyOf t.name), t.times, a.2⟩ :: rest.1, rest.2)
      | none => retargetTracks ts st

/-- The function `retargetAnimation` (page.tsx lines 139-156): deep-clone the source
clip, walk its tracks pushing remapped copies for every track whose bone
name is found in `boneMapping`, and return a new clip carrying the source
clip's own `name` and `duration` over the collected tracks. -/
def retargetAnimation (clip : AnimationClip) (st : Store) : AnimationClip × Store :=
  let c := cloneClip clip st
  let r := retargetTracks c.1.tracks c.2
  (⟨clip.name, clip.duration, r.1⟩, r.2)

/-- The name of the output track that `retargetAnimation` produces for a
source track named `n`, or `none` when the track is dropped.  This is the
name-level trace of the `forEach` body — own-key lookup first, then the
inherited `Object.prototype` members, then `undefined` — used to
characterise the output track list. -/
def retargetedName (n : String) : Option String :=
  match lookupStr (boneNameOf n) boneMapping with
  | some mapped =>
    if mapped = "" then none
    else some (mapped ++ "." ++ jsInterp (propertyOf n))
  | none =>
    match lookupStr (boneNameOf n) objectProtoProps with
    | some inherited => some (inherited ++ "." ++ jsInterp (propertyOf n))
    | none => none

/-- Whether a bone name is a key of the `boneMapping` table — the notion
the specification speaks about.  This is NOT the code's emit condition:
the runtime guard `if (boneMapping[boneName])` is `boneGuardPasses`,
which also accepts inherited `Object.prototype` member names. -/
def isMappedBone (b : String) : Bool :=
  (lookupStr b boneMapping).isSome

/-- The truthiness of the JavaScript bracket lookup `boneMapping[b]`:
a nonempty own value, or any inherited `Object.prototype` member (always
truthy), or falsy `undefined`.  This is the code's emit condition. -/
def boneGuardPasses (b : String) : Bool :=
  match lookupStr b boneMapping with
  | some v => if v = "" then false else true
  | none => (lookupStr b objectProtoProps).isSome

/-! ### Lemmas about the mapping table and the retargeter -/

theorem lookupStr_mem {α : Type} {k : String} {v : α} :
    ∀ {l : List (String × α)}, lookupStr k l = some v → (k, v) ∈ l := by
  intro l
  induction l with
  | nil => intro h; simp [lookupStr] at h
  | cons p ps ih =>
    intro h
    rw [lookupStr] at h
    by_cases hpk : p.1 = k
    · rw [if_pos hpk] at h
      injection h with h2
      subst h2
      subst hpk
      exact List.mem_cons_self _ _
    · rw [if_neg hpk] at h
      exact List.mem_cons_of_mem _ (ih h)

theorem boneMapping_values_ne_empty : ∀ p ∈ boneMapping, p.2 ≠ "" := by decide

theorem boneMapping_values_no_dot : ∀ p ∈ boneMapping, '.' ∉ p.2.data := by decide

theorem objectProtoProps_values_no_dot : ∀ p ∈ objectProtoProps, '.' ∉ p.2.data := by decide

theorem lookup_boneMapping_ne_empty {b v : String}
    (h : lookupStr b boneMapping = some v) : v ≠ "" :=
  boneMapping_values_ne_empty _ (lookupStr_mem h)

theorem retargetedName_of_lookup_eq_some {n v : String}
    (h : lookupStr (boneNameOf n) boneMapping = some v) :
    retargetedName n = some (v ++ "." ++ jsInterp (propertyOf n)) := by
  have h0 : retargetedName n
      = if v = "" then none else some (v ++ "." ++ jsInterp (propertyOf n)) := by
    rw [retargetedName, h]
  rw [h0, if_neg (lookup_boneMapping_ne_empty h)]

theorem retargetedName_of_proto_eq_some {n v : String}
    (hb : lookupStr (boneNameOf n) boneMapping = none)
    (hp : lookupStr (boneNameOf n) objectProtoProps = some v) :
    retargetedName n = some (v ++ "." ++ jsInterp (propertyOf n)) := by
  rw [retargetedName, hb, hp]

theorem retargetedName_eq_none_iff (n : String) :
    retargetedName n = none ↔ boneGuardPasses (boneNameOf n) = false := by
  rw [retargetedName, boneGuardPasses]
  cases h : lookupStr (boneNameOf n) boneMapping with
  | none =>
    cases hp : lookupStr (boneNameOf n) objectProtoProps with
    | none => simp
    | some w => simp
  | some v => simp [lookup_boneMapping_ne_empty h]

theorem retargetedName_isSome (n : String) :
    (retargetedName n).isSome = boneGuardPasses (boneNameOf n) := by
  rw [retargetedName, boneGuardPasses]
  cases h : lookupStr (boneNameOf n) boneMapping with
  | none =>
    cases hp : lookupStr (boneNameOf n) objectProtoProps with
    | none => simp
    | some w => simp
  | some v => simp [lookup_boneMapping_ne_empty h]

theorem cloneTracks_names (ts : List KeyframeTrack) (st : Store) :
    ((cloneTracks ts st).1).map KeyframeTrack.name = ts.map KeyframeTrack.name := by
  induction ts generalizing st with
  | nil => rfl
  | cons t ts ih => simp [cloneTracks, ih]

theorem retargetTracks_names (ts : List KeyframeTrack) (st : Store) :
    ((retargetTracks ts st).1).map KeyframeTrack.name
      = ts.filterMap (fun t => retargetedName t.name) := by
  induction ts generalizing st with
  | nil => rfl
  | cons t ts ih =>
    rw [retargetTracks, List.filterMap_cons, retargetedName]
    cases h : lookupStr (boneNameOf t.name) boneMapping with
    | none =>
      cases hp : lookupStr (boneNameOf t.name) objectProtoProps with
      | none => exact ih st
      | some inherited => simp [ih]
    | some mapped =>
      by_cases hm : mapped = ""
      · simp only [hm, if_pos rfl]
        exact ih st
      · simp only [if_neg hm]
        simp [ih, hm]

/-- Name-level characterisation of `retargetAnimation`: the output track
names are exactly the in-order image of the source tracks under
`retargetedName`. -/
theorem retargetAnimation_names (clip : AnimationClip) (st : Store) :
    ((retargetAnimation clip st).1).tracks.map KeyframeTrack.name
      = clip.tracks.filterMap (fun t => retargetedName t.name) := by
  show ((retargetTracks (cloneTracks clip.tracks st).1 (cloneTracks clip.tracks st).2).1).map
      KeyframeTrack.name = _
  rw [retargetTracks_names]
  have h := cloneTracks_names clip.tracks st
  show List.filterMap (retargetedName ∘ KeyframeTrack.name) _
      = List.filterMap (retargetedName ∘ KeyframeTrack.name) _
  rw [← List.filterMap_map, ← List.filterMap_map, h]

theorem length_filterMap_eq_length_filter {α β : Type} (l : List α)
    (f : α → Option β) (p : α → Bool) (h : ∀ a ∈ l, (f a).isSome = p a) :
    (l.filterMap f).length = (l.filter p).length := by
  induction l with
  | nil => rfl
  | cons a l ih =>
    have ha := h a (List.mem_cons_self a l)
    have hl := fun b hb => h b (List.mem_cons_of_mem a hb)
    cases hf : f a with
    | none =>
      rw [hf] at ha
      simp only [Option.isSome_none] at ha
      rw [List.filterMap_cons_none hf, List.filter_cons, ← ha]
      simpa using ih hl
    | some b =>
      rw [hf] at ha
      simp only [Option.isSome_some] at ha
      rw [List.filterMap_cons_some hf, List.filter_cons, ← ha]
      simpa using ih hl

theorem splitAux_append (c : Char) (l rest acc : List Char) (h : c ∉ l) :
    splitAux c (l ++ c :: rest) acc = (acc.reverse ++ l) :: splitAux c rest [] := by
  induction l generalizing acc with
  | nil => simp [splitAux]
  | cons x l ih =>
    have hx : ¬ x = c := fun hxc => h (by rw [← hxc]; exact List.mem_cons_self x l)
    have hl : c ∉ l := fun hc => h (List.mem_cons_of_mem x hc)
    rw [List.cons_append, splitAux, if_neg hx, ih (x :: acc) hl]
    simp

/-- The part of `m ++ "." ++ p` before the first dot is `m`, provided `m`
itself contains no dot. -/
theorem boneNameOf_append (m p : String) (hm : '.' ∉ m.data) :
    boneNameOf (m ++ "." ++ p) = m := by
  rw [boneNameOf, jsSplit]
  have hdata : (m ++ "." ++ p).data = m.data ++ '.' :: p.data := by
    rw [String.data_append, String.data_append]
    simp
  rw [hdata, splitAux_append '.' m.data p.data [] hm]
  simp [List.asString]

/-! ### Claim theorems for the retargeter -/

/-- Counterexample to claim C1 as stated: the bone name `"toString"` is
not a key of `boneMapping`, yet the JavaScript lookup
`boneMapping["toString"]` finds the truthy inherited
`Object.prototype.toString`, so the program emits a track for the source
track `"toString.position"` — the output has one track although the clip
has zero source tracks with mapped bone names, falsifying both the
no-track-for-non-keys part and the count equality. -/
theorem c1_counterexample :
    (((retargetAnimation ⟨ "clip", 1, [⟨ "toString.position", 0, 1 ⟩] ⟩
        ⟨ [[0], [1]] ⟩).1).tracks.map KeyframeTrack.name
      = ["function toString() \x7b [native code] \x7d.position"])
    ∧ isMappedBone (boneNameOf "toString.position") = false
    ∧ (([⟨ "toString.position", 0, 1 ⟩] : List KeyframeTrack).filter
        (fun t => isMappedBone (boneNameOf t.name))).length = 0 := by
  decide

/-- Claim C1 (amended): the retargeted clip contains exactly one track for
each source track whose bone name passes the JavaScript truthiness guard
`boneMapping[boneName]` — i.e. is a key of `boneMapping` or the name of an
inherited `Object.prototype` member — the output names being the in-order
image of those source tracks, and no track for any other source track;
hence the output track count equals the number of source tracks passing
that guard. -/
theorem c1_retarget_track_correspondence (clip : AnimationClip) (st : Store) :
    (((retargetAnimation clip st).1).tracks.map KeyframeTrack.name
        = clip.tracks.filterMap (fun t => retargetedName t.name))
    ∧ ((retargetAnimation clip st).1).tracks.length
        = (clip.tracks.filter (fun t => boneGuardPasses (boneNameOf t.name))).length := by
  refine ⟨retargetAnimation_names clip st, ?_⟩
  have h := congrArg List.length (retargetAnimation_names clip st)
  rw [List.length_map] at h
  rw [h]
  exact length_filterMap_eq_length_filter _ _ _ (fun t _ => retargetedName_isSome t.name)

/-- Counterexample to claim C2 as stated: a source clip whose only track
is `"valueOf.position"` has zero tracks with mapped bone names
(`"valueOf"` is not a key of `boneMapping`), yet the retargeted clip is
not empty — the truthy inherited `Object.prototype.valueOf` makes the
code emit a track. -/
theorem c2_counterexample :
    ((∀ t ∈ ([⟨ "valueOf.position", 0, 1 ⟩] : List KeyframeTrack),
        isMappedBone (boneNameOf t.name) = false))
    ∧ (((retargetAnimation ⟨ "clip", 2, [⟨ "valueOf.position", 0, 1 ⟩] ⟩
        ⟨ [[0], [1]] ⟩).1).tracks.length = 1) := by
  decide

/-- Claim C2 (amended): the retargeted clip always keeps the source clip's
name and duration; and a source clip none of whose tracks' bone names
passes the JavaScript truthiness guard (neither a key of `boneMapping`
nor an inherited `Object.prototype` member name) yields a clip with an
empty track list — still carrying the source's name and duration. -/
theorem c2_name_duration_preserved (clip : AnimationClip) (st : Store) :
    ((retargetAnimation clip st).1).name = clip.name
    ∧ ((retargetAnimation clip st).1).duration = clip.duration
    ∧ ((∀ t ∈ clip.tracks, boneGuardPasses (boneNameOf t.name) = false) →
        ((retargetAnimation clip st).1).tracks = []) := by
  refine ⟨rfl, rfl, fun h => ?_⟩
  have hn := retargetAnimation_names clip st
  have hnil : clip.tracks.filterMap (fun t => retargetedName t.name) = [] := by
    rw [List.filterMap_eq_nil_iff]
    intro t ht
    exact (retargetedName_eq_none_iff t.name).2 (h t ht)
  rw [hnil] at hn
  exact List.map_eq_nil_iff.1 hn

/-- Witness for C2 at a concrete clip whose single track has the unmapped
bone name `tail_JNT`. -/
theorem c2_name_duration_preserved_witness :
    ((retargetAnimation ⟨ "dance", 3, [⟨ "tail_JNT.rotation", 0, 1 ⟩] ⟩
        ⟨ [[1], [2]] ⟩).1).name = "dance"
    ∧ ((retargetAnimation ⟨ "dance", 3, [⟨ "tail_JNT.rotation", 0, 1 ⟩] ⟩
        ⟨ [[1], [2]] ⟩).1).duration = 3
    ∧ ((retargetAnimation ⟨ "dance", 3, [⟨ "tail_JNT.rotation", 0, 1 ⟩] ⟩
        ⟨ [[1], [2]] ⟩).1).tracks = [] :=
  ⟨ (c2_name_duration_preserved _ _).1,
    (c2_name_duration_preserved _ _).2.1,
    (c2_name_duration_preserved ⟨ "dance", 3, [⟨ "tail_JNT.rotation", 0, 1 ⟩] ⟩
        ⟨ [[1], [2]] ⟩).2.2 (by decide) ⟩

/-- Counterexample to claim C4 as stated: the track named `"hips_JNT"`
cannot be split into exactly two parts at a dot (it has one part), yet
`retargetAnimation` does not skip it — because `"hips_JNT"` is a mapped
bone name, the code emits a track named `"J_Bip_C_Hips.undefined"` (the
JavaScript template literal prints the `undefined` property part). -/
theorem c4_counterexample :
    ((retargetAnimation ⟨ "clip", 1, [⟨ "hips_JNT", 0, 1 ⟩] ⟩
        ⟨ [[0], [1]] ⟩).1).tracks.map KeyframeTrack.name = ["J_Bip_C_Hips.undefined"]
    ∧ (jsSplit '.' "hips_JNT").length ≠ 2 := by
  decide

/-- Claim C4 (amended): `retargetAnimation` never raises and processes
each track independently (the output names are the in-order image of the
source tracks, so a malformed track never aborts the others); a track —
malformed or not — is dropped (silently, nothing is logged) exactly when
the part of its name before the first dot fails the JavaScript truthiness
guard, i.e. is neither a key of `boneMapping` nor an inherited
`Object.prototype` member name; a malformed track name with no dot whose
whole name is a mapped bone key is emitted with the suffix
`".undefined"`, and one whose whole name is an inherited
`Object.prototype` member name is emitted as that member's
stringification with the suffix `".undefined"`. -/
theorem c4_malformed_track_handling (clip : AnimationClip) (st : Store) :
    (((retargetAnimation clip st).1).tracks.map KeyframeTrack.name
        = clip.tracks.filterMap (fun t => retargetedName t.name))
    ∧ (∀ n : String, retargetedName n = none ↔ boneGuardPasses (boneNameOf n) = false)
    ∧ (∀ n : String, (jsSplit '.' n).length = 1 →
        ∀ v, lookupStr (boneNameOf n) boneMapping = some v →
          retargetedName n = some (v ++ ".undefined"))
    ∧ (∀ n : String, (jsSplit '.' n).length = 1 →
        lookupStr (boneNameOf n) boneMapping = none →
        ∀ v, lookupStr (boneNameOf n) objectProtoProps = some v →
          retargetedName n = some (v ++ ".undefined")) := by
  refine ⟨retargetAnimation_names clip st, retargetedName_eq_none_iff, ?_, ?_⟩
  · intro n hlen v hv
    have hprop : propertyOf n = none := by
      rw [propertyOf, List.get?_eq_none, hlen]
    have hassoc : v ++ "." ++ "undefined" = v ++ ".undefined" := by
      rw [String.append_assoc]
      rfl
    rw [retargetedName_of_lookup_eq_some hv, hprop, jsInterp, Option.getD_none, hassoc]
  · intro n hlen hb v hv
    have hprop : propertyOf n = none := by
      rw [propertyOf, List.get?_eq_none, hlen]
    have hassoc : v ++ "." ++ "undefined" = v ++ ".undefined" := by
      rw [String.append_assoc]
      rfl
    rw [retargetedName_of_proto_eq_some hb hv, hprop, jsInterp, Option.getD_none, hassoc]

/-- Witness for the amended C4: the fully unmapped malformed name
`"tail_JNT"` is dropped, the mapped malformed name `"hips_JNT"` is
emitted as `"J_Bip_C_Hips.undefined"`, and the inherited-member malformed
name `"toString"` is emitted as the stringified member with
`".undefined"`. -/
theorem c4_malformed_track_handling_witness :
    retargetedName "tail_JNT" = none
    ∧ retargetedName "hips_JNT" = some ("J_Bip_C_Hips" ++ ".undefined")
    ∧ retargetedName "toString"
        = some ("function toString() \x7b [native code] \x7d" ++ ".undefined") :=
  ⟨ ((c4_malformed_track_handling ⟨ "c", 0, [] ⟩ ⟨ [] ⟩).2.1 "tail_JNT").2 (by decide),
    (c4_malformed_track_handling ⟨ "c", 0, [] ⟩ ⟨ [] ⟩).2.2.1 "hips_JNT" (by decide)
      "J_Bip_C_Hips" (by decide),
    (c4_malformed_track_handling ⟨ "c", 0, [] ⟩ ⟨ [] ⟩).2.2.2 "toString" (by decide)
      (by decide) "function toString() \x7b [native code] \x7d" (by decide) ⟩

/-- Counterexample to claim C10 as stated: for the source track
`"constructor.position"` the program emits a track whose bone prefix is
the stringification of the inherited `Object.prototype.constructor`,
which is not a value of `boneMapping`. -/
theorem c10_counterexample :
    (((retargetAnimation ⟨ "clip", 1, [⟨ "constructor.position", 0, 1 ⟩] ⟩
        ⟨ [[0], [1]] ⟩).1).tracks.map KeyframeTrack.name
      = ["function Object() \x7b [native code] \x7d.position"])
    ∧ (boneNameOf "function Object() \x7b [native code] \x7d.position"
        ∉ boneMapping.map Prod.snd) := by
  decide

/-- Claim C10 (amended): every track of the retargeted clip has a bone
prefix (part of the name before the first dot) that is either a value of
`boneMapping` — a target-skeleton joint name, the case for every source
track whose bone name is a mapped key — or the stringification of an
inherited `Object.prototype` member; and the output tracks are the
in-order image of the corresponding source tracks (same relative
order). -/
theorem c10_output_bone_names (clip : AnimationClip) (st : Store) :
    (∀ t2 ∈ ((retargetAnimation clip st).1).tracks,
        boneNameOf t2.name ∈ boneMapping.map Prod.snd
        ∨ boneNameOf t2.name ∈ objectProtoProps.map Prod.snd)
    ∧ (((retargetAnimation clip st).1).tracks.map KeyframeTrack.name
        = clip.tracks.filterMap (fun t => retargetedName t.name)) := by
  refine ⟨?_, retargetAnimation_names clip st⟩
  intro t2 ht2
  have hmem : t2.name ∈ clip.tracks.filterMap (fun t => retargetedName t.name) := by
    rw [← retargetAnimation_names clip st]
    exact List.mem_map_of_mem _ ht2
  obtain ⟨t, _, hret⟩ := List.mem_filterMap.1 hmem
  cases h : lookupStr (boneNameOf t.name) boneMapping with
  | none =>
    cases hp : lookupStr (boneNameOf t.name) objectProtoProps with
    | none =>
      have hg : boneGuardPasses (boneNameOf t.name) = false := by
        rw [boneGuardPasses, h, hp]
        rfl
      rw [(retargetedName_eq_none_iff t.name).2 hg] at hret
      exact absurd hret (by simp)
    | some w =>
      rw [retargetedName_of_proto_eq_some h hp] at hret
      injection hret with hname
      have hw : '.' ∉ w.data := objectProtoProps_values_no_dot _ (lookupStr_mem hp)
      rw [← hname, boneNameOf_append w _ hw]
      exact Or.inr (List.mem_map_of_mem Prod.snd (lookupStr_mem hp))
  | some v =>
    rw [retargetedName_of_lookup_eq_some h] at hret
    injection hret with hname
    have hv : '.' ∉ v.data := boneMapping_values_no_dot _ (lookupStr_mem h)
    rw [← hname, boneNameOf_append v _ hv]
    exact Or.inl (List.mem_map_of_mem Prod.snd (lookupStr_mem h))

/-! ### Store lemmas for the non-mutation / non-aliasing claim -/

theorem cloneTracks_store_append (ts : List KeyframeTrack) (st : Store) :
    ∃ ext, ((cloneTracks ts st).2).arrays = st.arrays ++ ext := by
  induction ts generalizing st with
  | nil => exact ⟨[], by simp [cloneTracks]⟩
  | cons t ts ih =>
    obtain ⟨ext, hext⟩ := ih (⟨st.arrays ++ [st.read t.times, (st.alloc (st.read t.times)).1.read t.values]⟩)
    refine ⟨[st.read t.times, (st.alloc (st.read t.times)).1.read t.values] ++ ext, ?_⟩
    show ((cloneTracks ts _).2).arrays = _
    rw [show ((st.alloc (st.read t.times)).1.alloc ((st.alloc (st.read t.times)).1.read t.values)).1
        = (⟨st.arrays ++ [st.read t.times, (st.alloc (st.read t.times)).1.read t.values]⟩ : Store) from by
      simp [Store.alloc]]
    rw [hext]
    simp

theorem retargetTracks_store_append (ts : List KeyframeTrack) (st : Store) :
    ∃ ext, ((retargetTracks ts st).2).arrays = st.arrays ++ ext := by
  induction ts generalizing st with
  | nil => exact ⟨[], by simp [retargetTracks]⟩
  | cons t ts ih =>
    rw [retargetTracks]
    split
    · split
      · exact ih st
      · obtain ⟨ext, hext⟩ := ih (st.alloc (st.read t.values)).1
        refine ⟨[st.read t.values] ++ ext, ?_⟩
        show ((retargetTracks ts _).2).arrays = _
        rw [hext]
        simp [Store.alloc]
    · split
      · obtain ⟨ext, hext⟩ := ih (st.alloc (st.read t.values)).1
        refine ⟨[st.read t.values] ++ ext, ?_⟩
        show ((retargetTracks ts _).2).arrays = _
        rw [hext]
        simp [Store.alloc]
      · exact ih st

theorem cloneTracks_fresh (ts : List KeyframeTrack) (st : Store) (B : Nat)
    (hB : B ≤ st.arrays.length) :
    ∀ t2 ∈ (cloneTracks ts st).1, B ≤ t2.times ∧ B ≤ t2.values := by
  induction ts generalizing st with
  | nil => intro t2 h; exact absurd h (by simp [cloneTracks])
  | cons t ts ih =>
    intro t2 h
    rw [cloneTracks] at h
    rcases List.mem_cons.1 h with h1 | h2
    · subst h1
      refine ⟨hB, ?_⟩
      show B ≤ (st.alloc (st.read t.times)).1.arrays.length
      simp [Store.alloc]
      omega
    · refine ih _ ?_ t2 h2
      simp [Store.alloc]
      omega

theorem retargetTracks_fresh (ts : List KeyframeTrack) (st : Store) (B : Nat)
    (hB : B ≤ st.arrays.length) (hts : ∀ t ∈ ts, B ≤ t.times) :
    ∀ t2 ∈ (retargetTracks ts st).1, B ≤ t2.times ∧ B ≤ t2.values := by
  induction ts generalizing st with
  | nil => intro t2 h; exact absurd h (by simp [retargetTracks])
  | cons t ts ih =>
    intro t2 h
    rw [retargetTracks] at h
    have htail : ∀ u ∈ ts, B ≤ u.times := fun u hu => hts u (List.mem_cons_of_mem t hu)
    split at h
    · split at h
      · exact ih st hB htail t2 h
      · rcases List.mem_cons.1 h with h1 | h2
        · subst h1
          exact ⟨hts t (List.mem_cons_self t ts), hB⟩
        · refine ih _ ?_ htail t2 h2
          simp [Store.alloc]
          omega
    · split at h
      · rcases List.mem_cons.1 h with h1 | h2
        · subst h1
          exact ⟨hts t (List.mem_cons_self t ts), hB⟩
        · refine ih _ ?_ htail t2 h2
          simp [Store.alloc]
          omega
      · exact ih st hB htail t2 h

theorem retargetAnimation_store_append (clip : AnimationClip) (st : Store) :
    ∃ ext, ((retargetAnimation clip st).2).arrays = st.arrays ++ ext := by
  obtain ⟨e1, h1⟩ := cloneTracks_store_append clip.tracks st
  obtain ⟨e2, h2⟩ := retargetTracks_store_append (cloneTracks clip.tracks st).1
      (cloneTracks clip.tracks st).2
  refine ⟨e1 ++ e2, ?_⟩
  show ((retargetTracks (cloneTracks clip.tracks st).1 (cloneTracks clip.tracks st).2).2).arrays = _
  rw [h2, h1, List.append_assoc]

theorem retargetAnimation_fresh (clip : AnimationClip) (st : Store) :
    ∀ t2 ∈ ((retargetAnimation clip st).1).tracks,
      st.arrays.length ≤ t2.times ∧ st.arrays.length ≤ t2.values := by
  intro t2 h
  obtain ⟨e1, h1⟩ := cloneTracks_store_append clip.tracks st
  have hlen : st.arrays.length ≤ ((cloneTracks clip.tracks st).2).arrays.length := by
    rw [h1]; simp
  have htimes : ∀ t ∈ (cloneTracks clip.tracks st).1, st.arrays.length ≤ t.times :=
    fun t ht => (cloneTracks_fresh clip.tracks st st.arrays.length (le_refl _) t ht).1
  exact retargetTracks_fresh (cloneTracks clip.tracks st).1 (cloneTracks clip.tracks st).2
    st.arrays.length hlen htimes t2 h

/-- Claim C3: `retargetAnimation` never mutates the source clip — every
array that existed in the store before the call reads back unchanged after
it (the store only grows) — and no time or value array of the returned
clip is aliased to (shares a reference with) any array of the source clip. -/
theorem c3_no_mutation_no_aliasing (clip : AnimationClip) (st : Store)
    (hvalid : ∀ t ∈ clip.tracks, t.times < st.arrays.length ∧ t.values < st.arrays.length) :
    (∀ r, r < st.arrays.length → ((retargetAnimation clip st).2).read r = st.read r)
    ∧ (∀ t2 ∈ ((retargetAnimation clip st).1).tracks, ∀ t ∈ clip.tracks,
        t2.times ≠ t.times ∧ t2.times ≠ t.values ∧ t2.values ≠ t.times ∧ t2.values ≠ t.values) := by
  obtain ⟨ext, hext⟩ := retargetAnimation_store_append clip st
  constructor
  · intro r hr
    rw [Store.read, Store.read, hext, List.getElem?_append_left hr]
  · intro t2 ht2 t ht
    have hfresh := retargetAnimation_fresh clip st t2 ht2
    have hv := hvalid t ht
    exact ⟨by omega, by omega, by omega, by omega⟩

/-- Witness for C3: on a concrete one-track clip, the pre-existing arrays
read back unchanged and the output track's arrays are not aliased to the
source track's arrays. -/
theorem c3_no_mutation_no_aliasing_witness :
    ((retargetAnimation ⟨ "c", 1, [⟨ "hips_JNT.position", 0, 1 ⟩] ⟩
        ⟨ [[5], [6]] ⟩).2).read 1 = Store.read ⟨ [[5], [6]] ⟩ 1
    ∧ (KeyframeTrack.values ⟨ "J_Bip_C_Hips.position", 2, 4 ⟩
        ≠ KeyframeTrack.values ⟨ "hips_JNT.position", 0, 1 ⟩) := by
  have h := c3_no_mutation_no_aliasing ⟨ "c", 1, [⟨ "hips_JNT.position", 0, 1 ⟩] ⟩
      ⟨ [[5], [6]] ⟩ (by decide)
  exact ⟨ h.1 1 (by decide),
    (h.2 ⟨ "J_Bip_C_Hips.position", 2, 4 ⟩ (by decide)
      ⟨ "hips_JNT.position", 0, 1 ⟩ (by decide)).2.2.2 ⟩

/-- Witness for the amended C10 at a concrete clip: the single output
track of retargeting `"hips_JNT.position"` has a bone prefix that is a
value of `boneMapping` or an inherited-member stringification (here the
former, `"J_Bip_C_Hips"`). -/
theorem c10_output_bone_names_witness :
    boneNameOf (KeyframeTrack.name ⟨ "J_Bip_C_Hips.position", 2, 4 ⟩)
        ∈ boneMapping.map Prod.snd
    ∨ boneNameOf (KeyframeTrack.name ⟨ "J_Bip_C_Hips.position", 2, 4 ⟩)
        ∈ objectProtoProps.map Prod.snd :=
  (c10_output_bone_names ⟨ "c", 1, [⟨ "hips_JNT.position", 0, 1 ⟩] ⟩
      ⟨ [[5], [6]] ⟩).1 ⟨ "J_Bip_C_Hips.position", 2, 4 ⟩ (by decide)

/-! ### Injectivity of decimal rendering of indices

`playDanceAnimation` names its actions `` `dance_${index}` ``; distinct
indices produce distinct action names because the decimal rendering of a
natural number is injective.  We prove this by relating `Nat.toDigitsCore`
to `Nat.digits`. -/

theorem toDigitsCore_eq_digits (f : Nat) :
    ∀ (n : Nat) (acc : List Char), 0 < n → n < 10 ^ f →
      Nat.toDigitsCore 10 f n acc
        = ((Nat.digits 10 n).map Nat.digitChar).reverse ++ acc := by
  induction f with
  | zero =>
    intro n acc h0 hf
    rw [pow_zero] at hf
    omega
  | succ f ih =>
    intro n acc h0 hf
    have hdig : Nat.digits 10 n = n % 10 :: Nat.digits 10 (n / 10) :=
      Nat.digits_def' (by norm_num) h0
    rw [Nat.toDigitsCore]
    by_cases hq : n / 10 = 0
    · rw [if_pos hq, hdig, hq]
      simp
    · rw [if_neg hq]
      have hlt : n / 10 < 10 ^ f := by
        rw [Nat.div_lt_iff_lt_mul (by norm_num)]
        calc n < 10 ^ (f + 1) := hf
        _ = 10 ^ f * 10 := by ring
      rw [ih (n / 10) _ (Nat.pos_of_ne_zero hq) hlt, hdig]
      simp

theorem natRepr_eq_digits (n : Nat) (h0 : 0 < n) :
    Nat.repr n = (((Nat.digits 10 n).map Nat.digitChar).reverse).asString := by
  rw [Nat.repr, Nat.toDigits]
  have hf : n < 10 ^ (n + 1) := by
    calc n < 10 ^ n := Nat.lt_pow_self (by norm_num) n
    _ ≤ 10 ^ (n + 1) := Nat.pow_le_pow_right (by norm_num) (by omega)
  rw [toDigitsCore_eq_digits (n + 1) n [] h0 hf]
  simp

theorem digitChar_inj_lt : ∀ a < 10, ∀ b < 10, Nat.digitChar a = Nat.digitChar b → a = b := by
  decide

theorem map_digitChar_inj :
    ∀ l1 l2 : List Nat, (∀ d ∈ l1, d < 10) → (∀ d ∈ l2, d < 10) →
      l1.map Nat.digitChar = l2.map Nat.digitChar → l1 = l2 := by
  intro l1
  induction l1 with
  | nil =>
    intro l2 _ _ h
    cases l2 with
    | nil => rfl
    | cons b l2 => exact absurd h (by simp)
  | cons a l1 ih =>
    intro l2 h1 h2 h
    cases l2 with
    | nil => exact absurd h (by simp)
    | cons b l2 =>
      simp only [List.map_cons, List.cons.injEq] at h
      have ha : a = b := digitChar_inj_lt a (h1 a (List.mem_cons_self a l1))
        b (h2 b (List.mem_cons_self b l2)) h.1
      rw [ha, ih l2 (fun d hd => h1 d (List.mem_cons_of_mem a hd))
        (fun d hd => h2 d (List.mem_cons_of_mem b hd)) h.2]

theorem digits_ten_lt (n : Nat) : ∀ d ∈ Nat.digits 10 n, d < 10 :=
  fun _ hd => Nat.digits_lt_base (by norm_num) hd

theorem natRepr_injective {m n : Nat} (h : Nat.repr m = Nat.repr n) : m = n := by
  by_cases hm : m = 0 <;> by_cases hn : n = 0
  · rw [hm, hn]
  · exfalso
    subst hm
    rw [natRepr_eq_digits n (Nat.pos_of_ne_zero hn)] at h
    have hdata := congrArg String.data h
    have h0 : Nat.repr 0 = "0" := rfl
    rw [h0] at hdata
    have hrev : ((Nat.digits 10 n).map Nat.digitChar).reverse = ['0'] := by
      have := hdata
      simp only [List.asString] at this
      exact this.symm
    have hmap : (Nat.digits 10 n).map Nat.digitChar = ['0'] := by
      rw [← List.reverse_reverse ((Nat.digits 10 n).map Nat.digitChar), hrev]
      rfl
    have hdig : Nat.digits 10 n = [0] :=
      map_digitChar_inj (Nat.digits 10 n) [0] (digits_ten_lt n) (by decide) (by rw [hmap]; rfl)
    have := Nat.ofDigits_digits 10 n
    rw [hdig] at this
    simp [Nat.ofDigits] at this
    exact hn this.symm
  · exfalso
    subst hn
    rw [natRepr_eq_digits m (Nat.pos_of_ne_zero hm)] at h
    have hdata := congrArg String.data h
    have h0 : Nat.repr 0 = "0" := rfl
    rw [h0] at hdata
    have hrev : ((Nat.digits 10 m).map Nat.digitChar).reverse = ['0'] := by
      have := hdata
      simp only [List.asString] at this
      exact this
    have hmap : (Nat.digits 10 m).map Nat.digitChar = ['0'] := by
      rw [← List.reverse_reverse ((Nat.digits 10 m).map Nat.digitChar), hrev]
      rfl
    have hdig : Nat.digits 10 m = [0] :=
      map_digitChar_inj (Nat.digits 10 m) [0] (digits_ten_lt m) (by decide) (by rw [hmap]; rfl)
    have := Nat.ofDigits_digits 10 m
    rw [hdig] at this
    simp [Nat.ofDigits] at this
    exact hm this.symm
  · rw [natRepr_eq_digits m (Nat.pos_of_ne_zero hm),
      natRepr_eq_digits n (Nat.pos_of_ne_zero hn)] at h
    have hdata := congrArg String.data h
    simp only [List.asString] at hdata
    have hrev := congrArg List.reverse hdata
    rw [List.reverse_reverse, List.reverse_reverse] at hrev
    have hdig := map_digitChar_inj _ _ (digits_ten_lt m) (digits_ten_lt n) hrev
    have hm2 := Nat.ofDigits_digits 10 m
    rw [hdig, Nat.ofDigits_digits 10 n] at hm2
    exact hm2.symm

/-! ### Playback controller (`playDanceAnimation`, page.tsx lines 371-404)

`actionsRef.current` maps action names to `THREE.AnimationAction` objects;
the objects are mutable, so we model them as references (indices) into a
heap of action states, mirroring how the JavaScript table stores object
references while the objects' internal state mutates.
`currentActionRef.current` holds an object reference, hence `Option Nat`.
The mixer is only tested for presence, hence a flag. -/

/-- Runtime state of one `THREE.AnimationAction`, restricted to the fields
the controller touches: whether the action is activated in the mixer
(`play`/`stop`), its local time (`reset`/`stop` zero it), its loop mode
(`setLoop(THREE.LoopRepeat, Infinity)`), and any scheduled fade
(`some true` = fading in, `some false` = fading out; `reset` and `stop`
cancel fades via `stopFading`). -/
structure ActionState where
  active : Bool
  time : Rat
  loopRepeat : Bool
  fading : Option Bool
  deriving Repr, DecidableEq

/-- Embeds `action.fadeOut(0.5)`: schedules a fade towards weight 0. -/
def fadeOutAct (a : ActionState) : ActionState :=
  { a with fading := some false }

/-- Embeds `action.stop()`: deactivates the action on the mixer and performs
`reset()` — time back to 0, fade cancelled. -/
def stopAct (a : ActionState) : ActionState :=
  { a with active := false, time := 0, fading := none }

/-- Embeds `action.reset()`: time back to 0, fade cancelled (stays activated if
it was). -/
def resetAct (a : ActionState) : ActionState :=
  { a with time := 0, fading := none }

/-- Embeds `action.fadeIn(0.5)`: schedules a fade towards weight 1. -/
def fadeInAct (a : ActionState) : ActionState :=
  { a with fading := some true }

/-- Embeds `action.play()`: activates the action on the mixer. -/
def playAct (a : ActionState) : ActionState :=
  { a with active := true }

/-- Embeds `action.setLoop(THREE.LoopRepeat, Infinity)`. -/
def setLoopRepeatAct (a : ActionState) : ActionState :=
  { a with loopRepeat := true }

/-- State of the page's `<audio>` element: its `loop` flag and whether
`play()` has been requested on it. -/
structure AudioState where
  loop : Bool
  playRequested : Bool
  deriving Repr, DecidableEq

/-- The controller's reachable state: `mixerRef.current` presence, the
heap of action objects, the `actionsRef.current` name → reference table,
`currentActionRef.current`, and `audioRef.current`. -/
structure ControllerState where
  mixerReady : Bool
  heap : List ActionState
  actions : List (String × Nat)
  current : Option Nat
  audio : Option AudioState
  deriving Repr, DecidableEq

/-- Default action state used for dangling-reference reads (never hit by
well-formed states). -/
def defaultAction : ActionState :=
  ⟨false, 0, false, none⟩

/-- Dereference an action. -/
def readAct (s : ControllerState) (r : Nat) : ActionState :=
  s.heap.getD r defaultAction

/-- Console output of `playDanceAnimation`. -/
inductive LogEvent where
  | called (index : Nat)
  | playingDance (index : Nat)
  | warnMissing (name : String)
  deriving Repr, DecidableEq

/-- The action name `` `dance_${index}` ``. -/
def danceName (index : Nat) : String :=
  "dance_" ++ toString index

/-- Lines 377-380: `if (currentActionRef.current) { fadeOut(0.5); stop(); }`. -/
def stopCurrent (s : ControllerState) : ControllerState :=
  match s.current with
  | some r => { s with heap := s.heap.set r (stopAct (fadeOutAct (readAct s r))) }
  | none => s

/-- Lines 382-389: create the audio element on first use (`loop = true`)
and request `play()` on it (an async failure is only logged). -/
def startAudio (s : ControllerState) : ControllerState :=
  match s.audio with
  | some a => { s with audio := some { a with playRequested := true } }
  | none => { s with audio := some ⟨true, true⟩ }

/-- The handler `playDanceAnimation(index)` (page.tsx lines 373-403): log the call,
stop the current action if any, start the audio, then — if the mixer
exists and an action named `` `dance_${index}` `` is registered — make it
current, `reset`, `fadeIn(0.5)`, `play`, `setLoop(LoopRepeat, Infinity)`;
otherwise log a warning.  Total: nothing in the body can throw. -/
def playDanceAnimation (index : Nat) (s : ControllerState) :
    ControllerState × List LogEvent :=
  let s2 := startAudio (stopCurrent s)
  match s2.mixerReady, lookupStr (danceName index) s2.actions with
  | true, some r =>
    ({ s2 with
        current := some r,
        heap := s2.heap.set r (setLoopRepeatAct (playAct (fadeInAct (resetAct (readAct s2 r))))) },
      [LogEvent.called index, LogEvent.playingDance index])
  | _, _ => (s2, [LogEvent.called index, LogEvent.warnMissing (danceName index)])

/-- The controller's own discipline: every table entry points into the
heap, distinct names hold distinct action objects (each registered action
comes from its own `mixer.clipAction(retargetedClip)` call), and at most
the current action is activated on the mixer. -/
def Disciplined (s : ControllerState) : Prop :=
  (∀ p ∈ s.actions, p.2 < s.heap.length)
  ∧ (s.actions.map Prod.snd).Nodup
  ∧ (∀ r, r < s.heap.length → (readAct s r).active = true → s.current = some r)

theorem danceName_injective {i j : Nat} (h : danceName i = danceName j) : i = j := by
  have hdata := congrArg String.data h
  rw [danceName, danceName, String.data_append, String.data_append] at hdata
  have hrepr := List.append_cancel_left hdata
  exact natRepr_injective (String.ext hrepr)

/-! ### Structural lemmas about the controller steps -/

@[simp] theorem stopCurrent_mixerReady (s : ControllerState) :
    (stopCurrent s).mixerReady = s.mixerReady := by
  rw [stopCurrent]; cases s.current <;> rfl

@[simp] theorem stopCurrent_actions (s : ControllerState) :
    (stopCurrent s).actions = s.actions := by
  rw [stopCurrent]; cases s.current <;> rfl

@[simp] theorem stopCurrent_current (s : ControllerState) :
    (stopCurrent s).current = s.current := by
  rw [stopCurrent]; cases hc : s.current <;> simp [hc]

@[simp] theorem stopCurrent_audio (s : ControllerState) :
    (stopCurrent s).audio = s.audio := by
  rw [stopCurrent]; cases s.current <;> rfl

@[simp] theorem stopCurrent_heap_length (s : ControllerState) :
    (stopCurrent s).heap.length = s.heap.length := by
  rw [stopCurrent]; cases s.current <;> simp

theorem stopCurrent_of_none (s : ControllerState) (h : s.current = none) :
    stopCurrent s = s := by
  rw [stopCurrent, h]

@[simp] theorem startAudio_mixerReady (s : ControllerState) :
    (startAudio s).mixerReady = s.mixerReady := by
  rw [startAudio]; cases s.audio <;> rfl

@[simp] theorem startAudio_actions (s : ControllerState) :
    (startAudio s).actions = s.actions := by
  rw [startAudio]; cases s.audio <;> rfl

@[simp] theorem startAudio_current (s : ControllerState) :
    (startAudio s).current = s.current := by
  rw [startAudio]; cases s.audio <;> rfl

@[simp] theorem startAudio_heap (s : ControllerState) :
    (startAudio s).heap = s.heap := by
  rw [startAudio]; cases s.audio <;> rfl

/-- The action state produced by `reset(); fadeIn(0.5); play();
setLoop(LoopRepeat, Infinity)` — fully determined. -/
theorem resetFadePlayLoop (x : ActionState) :
    setLoopRepeatAct (playAct (fadeInAct (resetAct x))) = ⟨true, 0, true, some true⟩ := rfl

/-- The action state produced by `fadeOut(0.5); stop()`. -/
theorem fadeOutStop (x : ActionState) :
    stopAct (fadeOutAct x) = ⟨false, 0, x.loopRepeat, none⟩ := rfl

/-- Running `playDanceAnimation` on a controller whose mixer is missing or whose
table lacks the requested action name reaches the `else` branch. -/
theorem playDance_miss (index : Nat) (s : ControllerState)
    (h : s.mixerReady = false ∨ lookupStr (danceName index) s.actions = none) :
    playDanceAnimation index s
      = (startAudio (stopCurrent s),
          [LogEvent.called index, LogEvent.warnMissing (danceName index)]) := by
  have ha : (startAudio (stopCurrent s)).actions = s.actions := by simp
  have hmx : (startAudio (stopCurrent s)).mixerReady = s.mixerReady := by simp
  simp only [playDanceAnimation]
  rcases h with hm | hl
  · rw [hmx, hm]
  · rw [ha, hl]
    cases hb : (startAudio (stopCurrent s)).mixerReady <;> rfl

/-- Running `playDanceAnimation` on a ready controller with the action registered
takes the play branch. -/
theorem playDance_hit (index : Nat) (s : ControllerState) (r : Nat)
    (hm : s.mixerReady = true) (hl : lookupStr (danceName index) s.actions = some r) :
    playDanceAnimation index s
      = ({ startAudio (stopCurrent s) with
            current := some r,
            heap := (stopCurrent s).heap.set r
              (setLoopRepeatAct (playAct (fadeInAct (resetAct (readAct (stopCurrent s) r))))) },
          [LogEvent.called index, LogEvent.playingDance index]) := by
  have ha : (startAudio (stopCurrent s)).actions = s.actions := by simp
  have hmx : (startAudio (stopCurrent s)).mixerReady = s.mixerReady := by simp
  simp only [playDanceAnimation]
  rw [hmx, hm, ha, hl]
  simp [readAct]

theorem playDance_state_basics (index : Nat) (s : ControllerState) :
    ((playDanceAnimation index s).1.mixerReady = s.mixerReady)
    ∧ ((playDanceAnimation index s).1.actions = s.actions)
    ∧ ((playDanceAnimation index s).1.heap.length = s.heap.length) := by
  by_cases hm : s.mixerReady = true
  · cases hl : lookupStr (danceName index) s.actions with
    | some r =>
      rw [playDance_hit index s r hm hl]
      exact ⟨by simp, by simp, by simp⟩
    | none =>
      rw [playDance_miss index s (Or.inr hl)]
      exact ⟨by simp, by simp, by simp⟩
  · have hm2 : s.mixerReady = false := by revert hm; cases s.mixerReady <;> simp
    rw [playDance_miss index s (Or.inl hm2)]
    exact ⟨by simp, by simp, by simp⟩

/-- After a successful `playDanceAnimation index`, the bound action reads
back as active, at time 0, with indefinite looping and a scheduled
fade-in — regardless of its previous state. -/
theorem readAct_after_hit (index : Nat) (s : ControllerState) (r : Nat)
    (hm : s.mixerReady = true) (hl : lookupStr (danceName index) s.actions = some r)
    (hr : r < s.heap.length) :
    readAct (playDanceAnimation index s).1 r = ⟨ true, 0, true, some true ⟩ := by
  rw [playDance_hit index s r hm hl, readAct]
  have hr1 : r < (stopCurrent s).heap.length := by rw [stopCurrent_heap_length]; exact hr
  simp [resetFadePlayLoop, List.getElem?_set_self hr1]

/-! ### Claim theorems for the playback controller -/

/-- Claim C5: for every index, calling `playDanceAnimation` when the mixer
is not initialised or no action named `dance_index` is registered logs a
warning and leaves the controller's current-action pointer and its
registered-actions table unchanged; when additionally no action is
current, the whole action heap is untouched.  The embedding is a total
function, reflecting that the code path throws nothing. -/
theorem c5_unready_controller_noop (index : Nat) (s : ControllerState)
    (h : s.mixerReady = false ∨ lookupStr (danceName index) s.actions = none) :
    ((playDanceAnimation index s).1.current = s.current)
    ∧ ((playDanceAnimation index s).1.actions = s.actions)
    ∧ LogEvent.warnMissing (danceName index) ∈ (playDanceAnimation index s).2
    ∧ (s.current = none → (playDanceAnimation index s).1.heap = s.heap) := by
  rw [playDance_miss index s h]
  refine ⟨by simp, by simp, by simp, fun hc => ?_⟩
  rw [startAudio_heap, stopCurrent_of_none s hc]

/-- Witness for C5: `playDanceAnimation 0` on a controller with no
registered actions warns and changes neither pointer, table nor heap. -/
theorem c5_unready_controller_noop_witness :
    ((playDanceAnimation 0 ⟨ true, [], [], none, none ⟩).1.current = none)
    ∧ ((playDanceAnimation 0 ⟨ true, [], [], none, none ⟩).1.actions = [])
    ∧ LogEvent.warnMissing (danceName 0) ∈ (playDanceAnimation 0 ⟨ true, [], [], none, none ⟩).2
    ∧ ((playDanceAnimation 0 ⟨ true, [], [], none, none ⟩).1.heap = []) := by
  have h := c5_unready_controller_noop 0 ⟨ true, [], [], none, none ⟩ (Or.inr rfl)
  exact ⟨ h.1, h.2.1, h.2.2.1, h.2.2.2 rfl ⟩

/-- Claim C7: calling `playDanceAnimation` twice in a row with the same
registered index resets the bound action to time 0 on each call — after
either call the action reads back at its start time and playing, so the
second call restarts playback from time zero rather than continuing. -/
theorem c7_same_index_resets (index : Nat) (s : ControllerState) (r : Nat)
    (hm : s.mixerReady = true) (hl : lookupStr (danceName index) s.actions = some r)
    (hr : r < s.heap.length) :
    ((readAct (playDanceAnimation index s).1 r).time = 0)
    ∧ ((readAct (playDanceAnimation index s).1 r).active = true)
    ∧ ((readAct (playDanceAnimation index (playDanceAnimation index s).1).1 r).time = 0)
    ∧ ((readAct (playDanceAnimation index (playDanceAnimation index s).1).1 r).active = true)
    ∧ ((readAct (playDanceAnimation index (playDanceAnimation index s).1).1 r).loopRepeat = true) := by
  have hb := playDance_state_basics index s
  have h1 := readAct_after_hit index s r hm hl hr
  have hm1 : (playDanceAnimation index s).1.mixerReady = true := by rw [hb.1]; exact hm
  have hl1 : lookupStr (danceName index) (playDanceAnimation index s).1.actions = some r := by
    rw [hb.2.1]; exact hl
  have hr1 : r < (playDanceAnimation index s).1.heap.length := by rw [hb.2.2]; exact hr
  have h2 := readAct_after_hit index (playDanceAnimation index s).1 r hm1 hl1 hr1
  rw [h1, h2]
  exact ⟨rfl, rfl, rfl, rfl, rfl⟩

/-- Witness for C7 at a concrete controller whose sole action starts at
time 5: both calls leave it at time 0 and playing. -/
theorem c7_same_index_resets_witness :
    ((readAct (playDanceAnimation 0
        ⟨ true, [⟨ false, 5, false, none ⟩], [( "dance_0", 0 )], none, none ⟩).1 0).time = 0)
    ∧ ((readAct (playDanceAnimation 0 (playDanceAnimation 0
        ⟨ true, [⟨ false, 5, false, none ⟩], [( "dance_0", 0 )], none, none ⟩).1).1 0).time = 0)
    ∧ ((readAct (playDanceAnimation 0 (playDanceAnimation 0
        ⟨ true, [⟨ false, 5, false, none ⟩], [( "dance_0", 0 )], none, none ⟩).1).1 0).active = true) := by
  have h := c7_same_index_resets 0
      ⟨ true, [⟨ false, 5, false, none ⟩], [( "dance_0", 0 )], none, none ⟩ 0
      rfl (by decide) (by decide)
  exact ⟨ h.1, h.2.2.1, h.2.2.2.1 ⟩

/-- Claim C9: `playDanceAnimation` creates (on first call) and starts the
audio element before checking whether the requested action exists, so even
when the lookup fails the audio has been started — `play()` requested,
`loop = true` on creation — while the animation part is a no-op (the
current-action pointer is unchanged). -/
theorem c9_audio_on_missing_action (index : Nat) (s : ControllerState)
    (h : lookupStr (danceName index) s.actions = none) :
    ((playDanceAnimation index s).1.audio.map AudioState.playRequested = some true)
    ∧ (s.audio = none → (playDanceAnimation index s).1.audio = some ⟨ true, true ⟩)
    ∧ ((playDanceAnimation index s).1.current = s.current) := by
  rw [playDance_miss index s (Or.inr h)]
  refine ⟨?_, ?_, by simp⟩
  · rw [startAudio, stopCurrent_audio]
    cases hb : s.audio <;> simp
  · intro hb
    rw [startAudio, stopCurrent_audio, hb]

theorem stopCurrent_of_some (s : ControllerState) {r : Nat} (h : s.current = some r) :
    stopCurrent s = { s with heap := s.heap.set r (stopAct (fadeOutAct (readAct s r))) } := by
  rw [stopCurrent, h]

theorem getD_set_self {l : List ActionState} {r : Nat} (a : ActionState)
    (h : r < l.length) : (l.set r a).getD r defaultAction = a := by
  simp [List.getElem?_set_self h]

theorem getD_set_ne {l : List ActionState} {r q : Nat} (a : ActionState)
    (h : r ≠ q) : (l.set r a).getD q defaultAction = l.getD q defaultAction := by
  simp [List.getElem?_set_ne h]

/-- Claim C6: on a disciplined controller with actions registered for two
distinct indices `i ≠ j`, calling `playDanceAnimation i` and then
`playDanceAnimation j` leaves exactly one action activated and looping —
the one for `j`, which is also the current action — while the action for
`i` has been stopped (deactivated, time reset); the discipline invariant
(at most the single current action is activated) is preserved, so at most
one action is current at any time when all requests go through
`playDanceAnimation`. -/
theorem c6_exclusive_playback (i j ri rj : Nat) (s : ControllerState)
    (hd : Disciplined s) (hm : s.mixerReady = true)
    (hi : lookupStr (danceName i) s.actions = some ri)
    (hj : lookupStr (danceName j) s.actions = some rj)
    (hne : i ≠ j) :
    ((playDanceAnimation j (playDanceAnimation i s).1).1.current = some rj)
    ∧ ((readAct (playDanceAnimation j (playDanceAnimation i s).1).1 rj).active = true)
    ∧ ((readAct (playDanceAnimation j (playDanceAnimation i s).1).1 rj).loopRepeat = true)
    ∧ ((readAct (playDanceAnimation j (playDanceAnimation i s).1).1 ri).active = false)
    ∧ ((readAct (playDanceAnimation j (playDanceAnimation i s).1).1 ri).time = 0)
    ∧ (∀ r, r < (playDanceAnimation j (playDanceAnimation i s).1).1.heap.length →
        (readAct (playDanceAnimation j (playDanceAnimation i s).1).1 r).active = true → r = rj)
    ∧ Disciplined (playDanceAnimation j (playDanceAnimation i s).1).1 := by
  have hri : ri < s.heap.length := hd.1 _ (lookupStr_mem hi)
  have hrj : rj < s.heap.length := hd.1 _ (lookupStr_mem hj)
  have hrirj : ri ≠ rj := by
    intro heq
    have hpe : ((danceName i, ri) : String × Nat) = (danceName j, rj) :=
      List.inj_on_of_nodup_map hd.2.1 (lookupStr_mem hi) (lookupStr_mem hj) (by simpa using heq)
    exact hne (danceName_injective (congrArg Prod.fst hpe))
  have hb1 := playDance_state_basics i s
  have h1 := playDance_hit i s ri hm hi
  have h1c : (playDanceAnimation i s).1.current = some ri := by rw [h1]
  have h1heap : (playDanceAnimation i s).1.heap
      = (stopCurrent s).heap.set ri ⟨ true, 0, true, some true ⟩ := by
    rw [h1, resetFadePlayLoop]
  have h1m : (playDanceAnimation i s).1.mixerReady = true := by rw [hb1.1]; exact hm
  have h1a : (playDanceAnimation i s).1.actions = s.actions := hb1.2.1
  have h1len : (playDanceAnimation i s).1.heap.length = s.heap.length := hb1.2.2
  have h2 := playDance_hit j (playDanceAnimation i s).1 rj h1m (by rw [h1a]; exact hj)
  have h2c : (playDanceAnimation j (playDanceAnimation i s).1).1.current = some rj := by rw [h2]
  have h2heap : (playDanceAnimation j (playDanceAnimation i s).1).1.heap
      = ((playDanceAnimation i s).1.heap.set ri
          (stopAct (fadeOutAct (readAct (playDanceAnimation i s).1 ri)))).set rj
          ⟨ true, 0, true, some true ⟩ := by
    rw [h2, resetFadePlayLoop, stopCurrent_of_some (playDanceAnimation i s).1 h1c]
  have hlen2 : (playDanceAnimation j (playDanceAnimation i s).1).1.heap.length
      = s.heap.length := by
    rw [h2heap]
    simp [h1len]
  have hrjlen : rj < ((playDanceAnimation i s).1.heap.set ri
      (stopAct (fadeOutAct (readAct (playDanceAnimation i s).1 ri)))).length := by
    rw [List.length_set, h1len]
    exact hrj
  have hreadj : readAct (playDanceAnimation j (playDanceAnimation i s).1).1 rj
      = ⟨ true, 0, true, some true ⟩ := by
    rw [readAct, h2heap]
    exact getD_set_self _ hrjlen
  have hreadi : readAct (playDanceAnimation j (playDanceAnimation i s).1).1 ri
      = stopAct (fadeOutAct (readAct (playDanceAnimation i s).1 ri)) := by
    rw [readAct, h2heap, getD_set_ne _ (Ne.symm hrirj)]
    exact getD_set_self _ (by rw [h1len]; exact hri)
  have hexcl : ∀ r, r < (playDanceAnimation j (playDanceAnimation i s).1).1.heap.length →
      (readAct (playDanceAnimation j (playDanceAnimation i s).1).1 r).active = true → r = rj := by
    intro r hrlen hact
    by_contra hrne
    rw [readAct, h2heap, getD_set_ne _ (fun he => hrne he.symm)] at hact
    rw [hlen2] at hrlen
    by_cases hri2 : r = ri
    · subst hri2
      rw [getD_set_self _ (by rw [h1len]; exact hrlen), fadeOutStop] at hact
      exact absurd hact (by simp)
    · rw [getD_set_ne _ (fun he => hri2 he.symm), h1heap] at hact
      by_cases hri3 : r = ri
      · exact absurd hri3 hri2
      · rw [getD_set_ne _ (fun he => hri3 he.symm)] at hact
        cases hc : s.current with
        | none =>
          rw [stopCurrent_of_none s hc] at hact
          have := hd.2.2 r hrlen (by rw [readAct]; exact hact)
          rw [hc] at this
          exact absurd this (by simp)
        | some c0 =>
          rw [stopCurrent_of_some s hc] at hact
          by_cases hrc : r = c0
          · subst hrc
            rw [getD_set_self _ hrlen, fadeOutStop] at hact
            exact absurd hact (by simp)
          · rw [getD_set_ne _ (fun he => hrc he.symm)] at hact
            have := hd.2.2 r hrlen (by rw [readAct]; exact hact)
            rw [hc] at this
            injection this with heq
            exact hrc heq.symm
  refine ⟨h2c, by rw [hreadj], by rw [hreadj], by rw [hreadi, fadeOutStop],
    by rw [hreadi, fadeOutStop], hexcl, ?_, ?_, ?_⟩
  · intro p hp
    rw [(playDance_state_basics j (playDanceAnimation i s).1).2.1, h1a] at hp
    rw [hlen2]
    exact hd.1 p hp
  · rw [(playDance_state_basics j (playDanceAnimation i s).1).2.1, h1a]
    exact hd.2.1
  · intro r hrlen hact
    rw [hexcl r hrlen hact]
    exact h2c

/-- Witness for C6 at a concrete disciplined controller with two
registered actions: after `playDanceAnimation 0` then
`playDanceAnimation 1`, only the action for index 1 is active. -/
theorem c6_exclusive_playback_witness :
    ((playDanceAnimation 1 (playDanceAnimation 0
        ⟨ true, [⟨ false, 5, false, none ⟩, ⟨ false, 7, false, none ⟩],
          [( "dance_0", 0 ), ( "dance_1", 1 )], none, none ⟩).1).1.current = some 1)
    ∧ ((readAct (playDanceAnimation 1 (playDanceAnimation 0
        ⟨ true, [⟨ false, 5, false, none ⟩, ⟨ false, 7, false, none ⟩],
          [( "dance_0", 0 ), ( "dance_1", 1 )], none, none ⟩).1).1 1).active = true)
    ∧ ((readAct (playDanceAnimation 1 (playDanceAnimation 0
        ⟨ true, [⟨ false, 5, false, none ⟩, ⟨ false, 7, false, none ⟩],
          [( "dance_0", 0 ), ( "dance_1", 1 )], none, none ⟩).1).1 0).active = false) := by
  have h := c6_exclusive_playback 0 1 0 1
      ⟨ true, [⟨ false, 5, false, none ⟩, ⟨ false, 7, false, none ⟩],
        [( "dance_0", 0 ), ( "dance_1", 1 )], none, none ⟩
      ⟨ by decide, by decide, by decide ⟩ rfl (by decide) (by decide) (by decide)
  exact ⟨ h.1, h.2.1, h.2.2.2.1 ⟩

/-- Witness for C9: on a controller with no audio element and no
registered actions, the call creates the looping audio element and
requests playback. -/
theorem c9_audio_on_missing_action_witness :
    ((playDanceAnimation 1 ⟨ false, [], [], none, none ⟩).1.audio.map
        AudioState.playRequested = some true)
    ∧ ((playDanceAnimation 1 ⟨ false, [], [], none, none ⟩).1.audio = some ⟨ true, true ⟩) := by
  have h := c9_audio_on_missing_action 1 ⟨ false, [], [], none, none ⟩ rfl
  exact ⟨ h.1, h.2.1 rfl ⟩

/-! ### `loadModels` and the module-level `isLoading` flag
(page.tsx lines 112 and 177-226)

`loadModels` is an async function with two suspension points (the two
`await loader.loadAsync` calls).  We model one invocation as: a
synchronous entry (the `if (isLoading) return;` guard followed by
`isLoading = true`), the effects applied after each await resolves (fed by
an oracle of load results), the `catch` notification, and the `finally`
clause clearing the flag.  `loadMidStates` lists the states at which the
invocation is suspended, i.e. the states another invocation could observe
while this one is in flight. -/

/-- Oracle: the outcomes of the two `loader.loadAsync` awaits. -/
structure LoadResults where
  character : Except String Unit
  dance : Except String Unit

/-- The world as far as `loadModels` mutates it: the shared `isLoading`
flag, the effects on the scene/mixer/action registry, and the
`onModelLoaded` notifications sent upward. -/
structure LoadWorld where
  isLoading : Bool
  modelAdded : Bool
  mixerCreated : Bool
  originalRegistered : Bool
  danceRegistered : Bool
  notifications : List (Bool × Option String)
  deriving Repr, DecidableEq

/-- Embeds `isLoading = true` (line 179, before the first await). -/
def setLoadingFlag (g : LoadWorld) : LoadWorld :=
  { g with isLoading := true }

/-- Lines 185-206: scene insertion, mixer creation, original-animation
registration after the character model resolves. -/
def charEffects (g : LoadWorld) : LoadWorld :=
  { g with modelAdded := true, mixerCreated := true, originalRegistered := true }

/-- Lines 209-216: dance-animation registration after the motion file
resolves. -/
def danceEffects (g : LoadWorld) : LoadWorld :=
  { g with danceRegistered := true }

/-- Embeds `props.onModelLoaded(...)` (line 218 on success, line 222 on error). -/
def notifyLoaded (g : LoadWorld) (ok : Bool) (msg : Option String) : LoadWorld :=
  { g with notifications := g.notifications ++ [(ok, msg)] }

/-- The `finally` clause (line 224): `isLoading = false`. -/
def finallyStep (g : LoadWorld) : LoadWorld :=
  { g with isLoading := false }

/-- The body of `loadModels` after the guard: await the character model
(failure jumps to `catch`, then `finally`), apply its effects, await the
dance model likewise, notify success, and clear the flag in `finally`. -/
def runLoadBody (res : LoadResults) (g : LoadWorld) : LoadWorld :=
  match res.character with
  | Except.error msg => finallyStep (notifyLoaded g false (some msg))
  | Except.ok _ =>
    match res.dance with
    | Except.error msg => finallyStep (notifyLoaded (charEffects g) false (some msg))
    | Except.ok _ => finallyStep (notifyLoaded (danceEffects (charEffects g)) true none)

/-- One invocation of `loadModels`: dropped immediately (second component
`true`) when the flag is set, otherwise the full run.  (page.tsx lines
177-226.) -/
def loadModels (res : LoadResults) (g : LoadWorld) : LoadWorld × Bool :=
  if g.isLoading then (g, true)
  else (runLoadBody res (setLoadingFlag g), false)

/-- The suspension points of a non-dropped invocation started from `g`:
awaiting the character model, and (when that resolves) awaiting the dance
model. -/
def loadMidStates (res : LoadResults) (g : LoadWorld) : List LoadWorld :=
  match res.character with
  | Except.error _ => [setLoadingFlag g]
  | Except.ok _ => [setLoadingFlag g, charEffects (setLoadingFlag g)]

/-- Claim C8: at most one model load is in flight.  A call made while the
flag is set returns immediately with no effect (dropped, not queued); a
completed run clears the flag whether each load succeeded or failed; and
at every suspension point of an in-flight run the flag is set, so any
invocation arriving there is dropped with no effect. -/
theorem c8_single_load_in_flight (res res2 : LoadResults) (g : LoadWorld) :
    (g.isLoading = true → loadModels res g = (g, true))
    ∧ (g.isLoading = false → (loadModels res g).1.isLoading = false)
    ∧ (g.isLoading = false → ∀ m ∈ loadMidStates res g,
        m.isLoading = true ∧ loadModels res2 m = (m, true)) := by
  refine ⟨fun h => ?_, fun h => ?_, fun _ m hm => ?_⟩
  · rw [loadModels, if_pos h]
  · rw [loadModels, if_neg (by rw [h]; simp)]
    show (runLoadBody res (setLoadingFlag g)).isLoading = false
    rw [runLoadBody]
    cases res.character with
    | error msg => rfl
    | ok u =>
      cases res.dance with
      | error msg => rfl
      | ok u2 => rfl
  · have hm1 : m.isLoading = true := by
      rw [loadMidStates] at hm
      cases hc : res.character with
      | error msg =>
        rw [hc] at hm
        have hm2 : m = setLoadingFlag g := List.mem_singleton.1 hm
        rw [hm2]
        rfl
      | ok u =>
        rw [hc] at hm
        rcases List.mem_cons.1 hm with hm2 | hm2
        · rw [hm2]
          rfl
        · have hm3 : m = charEffects (setLoadingFlag g) := List.mem_singleton.1 hm2
          rw [hm3]
          rfl
    exact ⟨hm1, by rw [loadModels, if_pos hm1]⟩

/-- Witness for C8: a call on a world already loading is dropped
unchanged, and a run whose character load fails still ends with the flag
cleared. -/
theorem c8_single_load_in_flight_witness :
    loadModels ⟨ Except.ok (), Except.ok () ⟩ ⟨ true, false, false, false, false, [] ⟩
      = (⟨ true, false, false, false, false, [] ⟩, true)
    ∧ (loadModels ⟨ Except.error "eek", Except.ok () ⟩
        ⟨ false, false, false, false, false, [] ⟩).1.isLoading = false := by
  have h1 := c8_single_load_in_flight ⟨ Except.ok (), Except.ok () ⟩
      ⟨ Except.ok (), Except.ok () ⟩ ⟨ true, false, false, false, false, [] ⟩
  have h2 := c8_single_load_in_flight ⟨ Except.error "eek", Except.ok () ⟩
      ⟨ Except.ok (), Except.ok () ⟩ ⟨ false, false, false, false, false, [] ⟩
  exact ⟨ h1.1 rfl, h2.2.1 rfl ⟩

end Anime3D
